import Mathlib

/-!
Verification development for the boop-airdrop-redeemer repository.

The Go sources are shallowly embedded:
  * float64 USD values are modelled as rationals; a field that the Go code
    obtains by strconv.ParseFloat / strconv.ParseUint of a string is modelled
    as an Option (none models a parse failure, some v a successful parse);
  * time.Time instants and time.Duration values are modelled as Int
    nanoseconds (Go durations are int64 nanoseconds); time.Since t at
    instant now is now - t;
  * Go maps are modelled as association lists; a nil-able field or pointer
    is an Option;
  * external effects (RPC calls, the HTTP API, config.RefreshAuthToken) are
    modelled by explicit oracle parameters giving the outcome of each call,
    and the side effects the claims speak about (claim submissions, direct
    sells) are recorded as explicit events.
-/

namespace BoopRedeemer

/-- One nanosecond-denominated minute, matching Go's time.Minute. -/
def minuteNs : Int := 60 * 1000000000

/-- Checks whether the list q occurs contiguously inside l
(Go strings.Contains on the underlying runes). -/
def containsSeq (l q : List Char) : Bool :=
  match l with
  | [] => q.isEmpty
  | _ :: rest => (q.isPrefixOf l) || containsSeq rest q

/-- Go strings.Contains haystack needle. -/
def strContains (haystack needle : String) : Bool :=
  containsSeq haystack.toList needle.toList

/-- Go strings.ToLower restricted to ASCII, which covers every marker the
code compares against. -/
def toLowerStr (s : String) : String :=
  String.mk (s.toList.map Char.toLower)

/-- The auth-error classification used in service.go: the error message,
lowercased, contains "unauthorized", "auth" or "token". -/
def isAuthErrorMsg (msg : String) : Bool :=
  strContains (toLowerStr msg) "unauthorized" ||
  strContains (toLowerStr msg) "auth" ||
  strContains (toLowerStr msg) "token"

/-- IsPermanentClaimError from service.go: the lowercased message contains
one of four permanent-error markers. -/
def isPermanentClaimError (msg : String) : Bool :=
  strContains (toLowerStr msg) "airdrop is already claimed" ||
  strContains (toLowerStr msg) "invalid token amount" ||
  strContains (toLowerStr msg) "failed to parse token amount" ||
  strContains (toLowerStr msg) "failed to find merkle distributor"

/-- models.AirdropNode (pkg/models).  amountLpt and amountUsd carry the
result of parsing the corresponding string fields (none = parse error);
claimedAt is the nullable platform-side claim timestamp. -/
structure AirdropNode where
  id : String
  amountLpt : Option Nat
  amountUsd : Option Rat
  claimedAt : Option Int
  tokenAddress : String
deriving Repr, DecidableEq

/-- TokenPriceInfo from pkg/autoclaim/price_tracker.go. -/
structure TokenPriceInfo where
  lastPrice : Rat
  lastChanged : Int
  firstObserved : Int
deriving Repr, DecidableEq

/-- The configuration fields the orchestration core reads
(pkg/config.Config). -/
structure Config where
  minimumUsdThreshold : Rat
  hasTokenManager : Bool
  walletPrivateKey : String
deriving Repr, DecidableEq

/-- DecisionMaker.ShouldClaim (decision_maker.go).  now is the instant at
which time.Since is evaluated. -/
def shouldClaim (cfg : Config) (airdrop : AirdropNode)
    (priceInfo : Option TokenPriceInfo) (now : Int) : Bool :=
  match priceInfo with
  | none => false
  | some info =>
    match airdrop.amountUsd with
    | none => false
    | some usdValue =>
      if usdValue ≥ cfg.minimumUsdThreshold then
        true
      else if usdValue > mkRat 7 100 then
        if now - info.lastChanged > 10 * minuteNs ∧
            now - info.firstObserved > 10 * minuteNs then
          true
        else
          false
      else
        false

/-- DecisionMaker.ShouldSellDirectly (decision_maker.go). -/
def shouldSellDirectly (cfg : Config) (airdrop : AirdropNode)
    (priceInfo : Option TokenPriceInfo) (now : Int) : Bool :=
  match priceInfo, airdrop.claimedAt with
  | none, _ => false
  | some _, none => false
  | some info, some _ =>
    match airdrop.amountUsd with
    | none => false
    | some usdValue =>
      if usdValue ≥ mkRat 1 10 then
        if now - info.lastChanged ≥ 10 * minuteNs ∧
            now - info.firstObserved ≥ 10 * minuteNs then
          true
        else
          false
      else
        false

/-- Association-list lookup modelling a Go map read. -/
def lookupInfo : List (String × TokenPriceInfo) → String → Option TokenPriceInfo
  | [], _ => none
  | (k', v') :: rest, k => if k' = k then some v' else lookupInfo rest k

/-- Association-list replace-or-append modelling a Go map write. -/
def insertInfo : List (String × TokenPriceInfo) → String → TokenPriceInfo →
    List (String × TokenPriceInfo)
  | [], k, v => [(k, v)]
  | (k', v') :: rest, k, v =>
    if k' = k then (k, v) :: rest else (k', v') :: insertInfo rest k v

/-- PriceTracker.UpdatePriceData (pkg/autoclaim/price_tracker.go): a parse
failure of amountUsd leaves the map untouched; a first observation writes
lastPrice, lastChanged and firstObserved to now; a later observation
rewrites the entry only when the price differs, keeping firstObserved. -/
def updatePriceData (tracker : List (String × TokenPriceInfo))
    (airdrop : AirdropNode) (now : Int) : List (String × TokenPriceInfo) :=
  match airdrop.amountUsd with
  | none => tracker
  | some usdValue =>
    match lookupInfo tracker airdrop.id with
    | none => insertInfo tracker airdrop.id ⟨usdValue, now, now⟩
    | some priceInfo =>
      if priceInfo.lastPrice ≠ usdValue then
        insertInfo tracker airdrop.id ⟨usdValue, now, priceInfo.firstObserved⟩
      else
        tracker

/-- PriceTracker.GetTokenPriceInfo: returns a copy of the entry, or nil. -/
def getTokenPriceInfo (tracker : List (String × TokenPriceInfo))
    (tokenID : String) : Option TokenPriceInfo :=
  lookupInfo tracker tokenID

/-- A sequence of UpdatePriceData calls (airdrop and the instant of the
call), applied in order. -/
def applyPriceUpdates (tracker : List (String × TokenPriceInfo)) :
    List (AirdropNode × Int) → List (String × TokenPriceInfo)
  | [] => tracker
  | (a, now) :: rest => applyPriceUpdates (updatePriceData tracker a now) rest

/-- The externally visible actions of one orchestration cycle that the
claims speak about: a ClaimAirdropByID invocation (with its attempt number
for the airdrop within the cycle) and the start of an asynchronous
SellToken goroutine. -/
inductive Event where
  | claimInvoked (id : String) (attempt : Nat)
  | sellStarted (id : String)
deriving DecidableEq, Repr

/-- Membership in the claimedAirdrops set (a Go map-of-bool read). -/
def hasID : List String → String → Bool
  | [], _ => false
  | x :: rest, id => if x = id then true else hasID rest id

/-- Service.isAlreadyClaimed (pkg/autoclaim service.go): first consults the
local claimedAirdrops set, then the platform-side claimedAt field; in the
latter case the airdrop is also added to the local set.  Returns the answer
together with the updated set. -/
def isAlreadyClaimed (claimed : List String) (airdrop : AirdropNode) :
    Bool × List String :=
  if hasID claimed airdrop.id then
    (true, claimed)
  else if airdrop.claimedAt.isSome then
    (true, airdrop.id :: claimed)
  else
    (false, claimed)

/-- Service.handleClaimResult: a successful claim marks the airdrop
claimed; a failed claim marks it claimed only on a permanent error. -/
def handleClaimResult (claimed : List String) (airdrop : AirdropNode)
    (res : Except String String) : List String :=
  match res with
  | .ok _ => airdrop.id :: claimed
  | .error msg =>
    if isPermanentClaimError msg then airdrop.id :: claimed else claimed

/-- Service.handleStableTokenSale: the synchronous part, which decides
whether to start the asynchronous SellToken goroutine (recorded as a
sellStarted event; the goroutine body runs outside the cycle). -/
def handleStableTokenSale (cfg : Config) (claimed : List String)
    (airdrop : AirdropNode) (priceInfo : Option TokenPriceInfo)
    (now : Int) : List Event :=
  if airdrop.claimedAt.isNone || priceInfo.isNone then
    []
  else if shouldSellDirectly cfg airdrop priceInfo now then
    if hasID claimed airdrop.id then [] else [Event.sellStarted airdrop.id]
  else
    []

/-- Result of Service.processAndFilterAirdrops: the claim-eligible
airdrops, the updated price tracker and claimed set, and the events
emitted while filtering. -/
structure FilterResult where
  filtered : List AirdropNode
  tracker : List (String × TokenPriceInfo)
  claimed : List String
  events : List Event
deriving Repr

/-- Service.processAndFilterAirdrops: for each airdrop, skip if already
claimed, otherwise update price data, evaluate ShouldClaim, and either
collect the airdrop as claim-eligible or run handleStableTokenSale. -/
def processAndFilterAirdrops (cfg : Config) (claimed : List String)
    (tracker : List (String × TokenPriceInfo)) (now : Int) :
    List AirdropNode → FilterResult
  | [] => ⟨[], tracker, claimed, []⟩
  | a :: rest =>
    if (isAlreadyClaimed claimed a).1 then
      processAndFilterAirdrops cfg (isAlreadyClaimed claimed a).2 tracker now rest
    else
      if shouldClaim cfg a (getTokenPriceInfo (updatePriceData tracker a now) a.id) now then
        let r := processAndFilterAirdrops cfg claimed (updatePriceData tracker a now) now rest
        ⟨a :: r.filtered, r.tracker, r.claimed, r.events⟩
      else
        let r := processAndFilterAirdrops cfg claimed (updatePriceData tracker a now) now rest
        ⟨r.filtered, r.tracker, r.claimed,
          handleStableTokenSale cfg claimed a
            (getTokenPriceInfo (updatePriceData tracker a now) a.id) now ++ r.events⟩

/-- Service.refreshAuthToken: requires private-key auth with a token
manager; skips when the last refresh is less than 30 minutes old; on a
successful config.RefreshAuthToken call records the refresh time.
refreshSucceeds is the outcome of the underlying RefreshAuthToken call.
Returns (new lastTokenRefresh, whether RefreshAuthToken was called,
whether a refresh was performed successfully). -/
def refreshAuthToken (cfg : Config) (lastTokenRefresh : Option Int)
    (now : Int) (refreshSucceeds : Bool) : Option Int × Bool × Bool :=
  if !cfg.hasTokenManager || cfg.walletPrivateKey = "" then
    (lastTokenRefresh, false, false)
  else
    match lastTokenRefresh with
    | some t =>
      if now - t < 30 * minuteNs then
        (lastTokenRefresh, false, false)
      else if refreshSucceeds then
        (some now, true, true)
      else
        (lastTokenRefresh, true, false)
    | none =>
      if refreshSucceeds then (some now, true, true) else (none, true, false)

/-- A sequence of refreshAuthToken invocations (instant of the call and the
outcome the underlying RefreshAuthToken call would have).  Returns the
final lastTokenRefresh and how many refreshes were actually performed. -/
def applyRefreshCalls (cfg : Config) (lastTokenRefresh : Option Int) :
    List (Int × Bool) → Option Int × Nat
  | [] => (lastTokenRefresh, 0)
  | c :: rest =>
    ((applyRefreshCalls cfg (refreshAuthToken cfg lastTokenRefresh c.1 c.2).1 rest).1,
      (if (refreshAuthToken cfg lastTokenRefresh c.1 c.2).2.2 then 1 else 0) +
        (applyRefreshCalls cfg (refreshAuthToken cfg lastTokenRefresh c.1 c.2).1 rest).2)

/-- Result of the claiming phase of Service.processAirdrops. -/
structure ClaimLoopResult where
  claimed : List String
  lastTokenRefresh : Option Int
  events : List Event
deriving Repr

/-- The claiming loop of Service.processAirdrops: skip airdrops that are
already claimed; for the first remaining one, call ClaimAirdropByID (the
claimOracle gives the outcome of each invocation), on an auth-classified
error refresh the token and retry the claim exactly once, record the
outcome via handleClaimResult, and break out of the loop. -/
def claimLoop (cfg : Config) (claimOracle : String → Nat → Except String String)
    (refreshSucceeds : Bool) (now : Int) (claimed : List String)
    (lastTokenRefresh : Option Int) : List AirdropNode → ClaimLoopResult
  | [] => ⟨claimed, lastTokenRefresh, []⟩
  | a :: rest =>
    if (isAlreadyClaimed claimed a).1 then
      claimLoop cfg claimOracle refreshSucceeds now (isAlreadyClaimed claimed a).2
        lastTokenRefresh rest
    else
      match claimOracle a.id 1 with
      | .ok tx =>
        ⟨handleClaimResult claimed a (.ok tx), lastTokenRefresh,
          [Event.claimInvoked a.id 1]⟩
      | .error msg =>
        if isAuthErrorMsg msg then
          ⟨handleClaimResult claimed a (claimOracle a.id 2),
            (refreshAuthToken cfg lastTokenRefresh now refreshSucceeds).1,
            [Event.claimInvoked a.id 1, Event.claimInvoked a.id 2]⟩
        else
          ⟨handleClaimResult claimed a (.error msg), lastTokenRefresh,
            [Event.claimInvoked a.id 1]⟩

/-- The mutable state of the auto-claim Service that one cycle reads and
writes. -/
structure ServiceState where
  claimed : List String
  tracker : List (String × TokenPriceInfo)
  lastTokenRefresh : Option Int
deriving Repr

/-- Service.processAirdrops, one full cycle: on a scan error an
auth-classified message triggers refreshAuthToken and the cycle ends (the
scan is not retried); otherwise the scanned airdrops are filtered and the
claiming loop runs. -/
def processAirdrops (cfg : Config) (st : ServiceState) (now : Int)
    (scanResult : Except String (List AirdropNode))
    (claimOracle : String → Nat → Except String String)
    (refreshSucceeds : Bool) : ServiceState × List Event :=
  match scanResult with
  | .error msg =>
    if isAuthErrorMsg msg then
      ({ st with lastTokenRefresh :=
          (refreshAuthToken cfg st.lastTokenRefresh now refreshSucceeds).1 }, [])
    else
      (st, [])
  | .ok airdrops =>
    let fr := processAndFilterAirdrops cfg st.claimed st.tracker now airdrops
    let cr := claimLoop cfg claimOracle refreshSucceeds now fr.claimed
      st.lastTokenRefresh fr.filtered
    (⟨cr.claimed, fr.tracker, cr.lastTokenRefresh⟩, fr.events ++ cr.events)

/-- Association-list lookup into the airdrop store (the Go map underlying
inMemoryAirdropStore). -/
def lookupAirdrop : List (String × AirdropNode) → String → Option AirdropNode
  | [], _ => none
  | (k', v') :: rest, k => if k' = k then some v' else lookupAirdrop rest k

/-- AirdropClaimer.ClaimAirdropByIDWithConfig, precondition part
(part_000): the store lookup (inMemoryAirdropStore.ClaimAirdrop, whose
not-found error the claimer wraps) and the already-claimed check both fail
the call before any instruction is built; everything past the two guards
is abstracted by the rest continuation.  The Bool records whether a claim
transaction was built and submitted. -/
def claimAirdropByIDWithConfig (store : List (String × AirdropNode))
    (airdropID : String) (rest : AirdropNode → Except String String × Bool) :
    Except String String × Bool :=
  match lookupAirdrop store airdropID with
  | none =>
    (.error ("failed to get airdrop: airdrop with ID " ++ airdropID ++ " not found"),
      false)
  | some airdrop =>
    if airdrop.claimedAt.isSome then
      (.error ("airdrop " ++ airdropID ++ " is already claimed"), false)
    else
      rest airdrop

/-- Outcome of one attempt of the swap retry loop
(jupiter/service.go SwapTokenForSolWithRetries), at the step where the
attempt stopped. -/
inductive SwapStepOutcome where
  | quoteFail (msg : String)
  | buildFail (msg : String)
  | blockhashFail (msg : String)
  | decodeFail (msg : String)
  | signFail (msg : String)
  | sendFail (msg : String)
  | success (sig : String)
deriving DecidableEq, Repr

/-- The error substring that makes the retry loop disable shared accounts. -/
def sharedAccountsMarker : String := "Simple AMMs are not supported with shared accounts"

/-- Whether the attempt submitted a transaction successfully. -/
def isSwapSuccess : SwapStepOutcome → Bool
  | .success _ => true
  | _ => false

/-- Whether a failed build step reported the shared-accounts-unsupported
condition. -/
def isSharedAccountsUnsupported : SwapStepOutcome → Bool
  | .buildFail msg => strContains msg sharedAccountsMarker
  | _ => false

/-- The fmt.Errorf wrapping each failing step receives inside the loop. -/
def wrapSwapError : SwapStepOutcome → String
  | .quoteFail msg => "failed to get swap quote: " ++ msg
  | .buildFail msg => "failed to get swap transaction: " ++ msg
  | .blockhashFail msg => "failed to get latest blockhash: " ++ msg
  | .decodeFail msg => "failed to decode transaction: " ++ msg
  | .signFail msg => "failed to sign transaction: " ++ msg
  | .sendFail msg => "failed to send transaction: " ++ msg
  | .success sig => sig

/-- The useSharedAccounts flag after seeing an attempt's outcome: turned
off by a build failure carrying the shared-accounts marker, otherwise
unchanged (in particular it never turns back on). -/
def nextUseShared (useShared : Bool) : SwapStepOutcome → Bool
  | .buildFail msg =>
    if strContains msg sharedAccountsMarker then false else useShared
  | _ => useShared

/-- One attempt as recorded by the retry loop: its number, the
useSharedAccounts flag it ran with, its outcome, and the fixed delay slept
after it (none on success, which returns immediately). -/
structure SwapAttempt where
  attempt : Nat
  usedShared : Bool
  outcome : SwapStepOutcome
  delayAfterNs : Option Int
deriving DecidableEq, Repr

/-- The aggregate error returned when every attempt failed
(fmt.Errorf wrapping the last underlying failure). -/
def aggSwapError (maxRetries : Nat) (lastErr : Option String) : String :=
  "all " ++ toString maxRetries ++ " attempts failed to swap token: " ++ lastErr.getD ""

/-- The body of SwapTokenForSolWithRetries' for-loop.  The swapOracle gives
the outcome each attempt would reach under the useSharedAccounts flag it is
issued with; the recursion consumes the remaining attempt budget. -/
def swapGo (swapOracle : Nat → Bool → SwapStepOutcome) (maxRetries : Nat)
    (retryDelayNs : Int) : Nat → Nat → Bool → Option String →
    Except String String × List SwapAttempt
  | 0, _, _, lastErr => (.error (aggSwapError maxRetries lastErr), [])
  | remaining + 1, attempt, useShared, _ =>
    match swapOracle attempt useShared with
    | .success sig =>
      (.ok sig, [⟨attempt, useShared, .success sig, none⟩])
    | o =>
      ((swapGo swapOracle maxRetries retryDelayNs remaining (attempt + 1)
          (nextUseShared useShared o) (some (wrapSwapError o))).1,
        ⟨attempt, useShared, o, some retryDelayNs⟩ ::
          (swapGo swapOracle maxRetries retryDelayNs remaining (attempt + 1)
            (nextUseShared useShared o) (some (wrapSwapError o))).2)

/-- SwapTokenForSolWithRetries: wallet derivation first (walletOk models
whether GetWallet succeeds), then the retry loop starting at attempt 1 with
shared accounts enabled. -/
def swapTokenForSolWithRetries (swapOracle : Nat → Bool → SwapStepOutcome)
    (walletOk : Bool) (maxRetries : Nat) (retryDelayNs : Int) :
    Except String String × List SwapAttempt :=
  if walletOk then
    swapGo swapOracle maxRetries retryDelayNs maxRetries 1 true none
  else
    (.error "failed to get wallet: invalid private key", [])

/-- SwapTokenForSol: the fixed policy used by the token seller — 10
attempts, 3 second delay. -/
def swapTokenForSol (swapOracle : Nat → Bool → SwapStepOutcome)
    (walletOk : Bool) : Except String String × List SwapAttempt :=
  swapTokenForSolWithRetries swapOracle walletOk 10 (3 * 1000000000)

/-- The lastErr value the retry loop holds after a trace of attempts: the
wrapped error of the last recorded attempt, or the incoming lastErr when
the trace is empty (this is exactly how the loop threads lastErr). -/
def lastWrapped : List SwapAttempt → Option String → Option String
  | [], lastErr => lastErr
  | e :: tr, _ => lastWrapped tr (some (wrapSwapError e.outcome))

/-- TokenSeller.SellToken (pkg/autoclaim/token_seller.go), up to the swap:
a token amount that fails to parse aborts, otherwise the swap service's
SwapTokenForSol runs (its post-success fee accounting does not change the
returned error). -/
def sellToken (swapOracle : Nat → Bool → SwapStepOutcome) (walletOk : Bool)
    (airdrop : AirdropNode) : Except String String × List SwapAttempt :=
  match airdrop.amountLpt with
  | none => (.error "failed to parse token amount", [])
  | some _ => swapTokenForSol swapOracle walletOk

theorem lookupInfo_insertInfo_self (t : List (String × TokenPriceInfo))
    (k : String) (v : TokenPriceInfo) :
    lookupInfo (insertInfo t k v) k = some v := by
  induction t with
  | nil => simp [insertInfo, lookupInfo]
  | cons hd tl ih =>
    by_cases h : hd.1 = k
    · simp [insertInfo, lookupInfo, h]
    · simp [insertInfo, lookupInfo, h, ih]

theorem lookupInfo_insertInfo_ne (t : List (String × TokenPriceInfo))
    (k k' : String) (v : TokenPriceInfo) (h : k ≠ k') :
    lookupInfo (insertInfo t k v) k' = lookupInfo t k' := by
  induction t with
  | nil => simp [insertInfo, lookupInfo, h]
  | cons hd tl ih =>
    by_cases hk : hd.1 = k
    · simp [insertInfo, lookupInfo, hk, h]
    · simp [insertInfo, lookupInfo, hk, ih]

theorem updatePriceData_firstObserved_stable
    (t : List (String × TokenPriceInfo)) (a : AirdropNode) (now : Int)
    (id : String) (info : TokenPriceInfo)
    (h : lookupInfo t id = some info) :
    ∃ info', lookupInfo (updatePriceData t a now) id = some info' ∧
      info'.firstObserved = info.firstObserved := by
  unfold updatePriceData
  cases hu : a.amountUsd with
  | none => exact ⟨info, h, rfl⟩
  | some usd =>
    by_cases hid : a.id = id
    · subst hid
      rw [h]
      dsimp only
      by_cases hp : info.lastPrice ≠ usd
      · rw [if_pos hp]
        exact ⟨_, lookupInfo_insertInfo_self t a.id _, rfl⟩
      · rw [if_neg hp]
        exact ⟨info, h, rfl⟩
    · cases hl : lookupInfo t a.id with
      | none =>
        dsimp only
        refine ⟨info, ?_, rfl⟩
        rw [lookupInfo_insertInfo_ne t a.id id _ hid]
        exact h
      | some pi =>
        dsimp only
        by_cases hp : pi.lastPrice ≠ usd
        · rw [if_pos hp]
          refine ⟨info, ?_, rfl⟩
          rw [lookupInfo_insertInfo_ne t a.id id _ hid]
          exact h
        · rw [if_neg hp]
          exact ⟨info, h, rfl⟩

theorem applyPriceUpdates_firstObserved_stable
    (calls : List (AirdropNode × Int)) (t : List (String × TokenPriceInfo))
    (id : String) (info : TokenPriceInfo)
    (h : lookupInfo t id = some info) :
    ∃ info', lookupInfo (applyPriceUpdates t calls) id = some info' ∧
      info'.firstObserved = info.firstObserved := by
  induction calls generalizing t info with
  | nil => exact ⟨info, h, rfl⟩
  | cons hd tl ih =>
    obtain ⟨info1, h1, hfo1⟩ :=
      updatePriceData_firstObserved_stable t hd.1 hd.2 id info h
    obtain ⟨info2, h2, hfo2⟩ := ih (updatePriceData t hd.1 hd.2) info1 h1
    exact ⟨info2, h2, hfo2.trans hfo1⟩

/-- Claim C2: for every airdrop with an existing price observation and a
parseable amountUsd satisfying 0.07 < amountUsd < minimumUsdThreshold,
ShouldClaim returns true if and only if both now - lastChanged > 10 minutes
and now - firstObserved > 10 minutes, with strict comparison: it returns
false when either duration equals exactly 10 minutes. -/
theorem shouldClaim_stability_band (cfg : Config) (a : AirdropNode)
    (info : TokenPriceInfo) (now : Int) (usd : Rat)
    (hparse : a.amountUsd = some usd)
    (hlow : mkRat 7 100 < usd) (hhigh : usd < cfg.minimumUsdThreshold) :
    (shouldClaim cfg a (some info) now = true ↔
      (now - info.lastChanged > 10 * minuteNs ∧
        now - info.firstObserved > 10 * minuteNs)) ∧
    ((now - info.lastChanged = 10 * minuteNs ∨
        now - info.firstObserved = 10 * minuteNs) →
      shouldClaim cfg a (some info) now = false) := by
  have hthr : ¬ (usd ≥ cfg.minimumUsdThreshold) := not_le.mpr hhigh
  have hmain : shouldClaim cfg a (some info) now = true ↔
      (now - info.lastChanged > 10 * minuteNs ∧
        now - info.firstObserved > 10 * minuteNs) := by
    simp only [shouldClaim, hparse]
    rw [if_neg hthr, if_pos hlow]
    by_cases h : now - info.lastChanged > 10 * minuteNs ∧
        now - info.firstObserved > 10 * minuteNs
    · rw [if_pos h]
      simp [h]
    · rw [if_neg h]
      simp [h]
  refine ⟨hmain, fun hor => ?_⟩
  have hnot : ¬ (now - info.lastChanged > 10 * minuteNs ∧
      now - info.firstObserved > 10 * minuteNs) := by
    rcases hor with h | h
    · rintro ⟨h1, _⟩
      rw [h] at h1
      exact lt_irrefl _ h1
    · rintro ⟨_, h2⟩
      rw [h] at h2
      exact lt_irrefl _ h2
  cases hb : shouldClaim cfg a (some info) now with
  | false => rfl
  | true => exact absurd (hmain.mp hb) hnot

/-- Claim C2 witness: at exactly 10 minutes of stability the claim is
rejected. -/
theorem shouldClaim_stability_band_witness :
    shouldClaim ⟨mkRat 1 2, true, ""⟩
      ⟨"a1", some 5, some (mkRat 1 5), none, "tok"⟩
      (some ⟨mkRat 1 5, 0, 0⟩) (10 * minuteNs) = false :=
  (shouldClaim_stability_band ⟨mkRat 1 2, true, ""⟩
    ⟨"a1", some 5, some (mkRat 1 5), none, "tok"⟩
    ⟨mkRat 1 5, 0, 0⟩ (10 * minuteNs) (mkRat 1 5)
    rfl (by decide) (by decide)).2 (Or.inl (by decide))

/-- Claim C3: ShouldClaim returns false for every airdrop with no recorded
price observation, regardless of amountUsd; and with an observation present
and parseable amountUsd at or above the minimum USD threshold it returns
true regardless of price stability. -/
theorem shouldClaim_nil_info_and_threshold (cfg : Config) (a : AirdropNode)
    (now : Int) :
    (shouldClaim cfg a none now = false) ∧
    (∀ usd info, a.amountUsd = some usd → usd ≥ cfg.minimumUsdThreshold →
      shouldClaim cfg a (some info) now = true) := by
  constructor
  · rfl
  · intro usd info hparse hthr
    simp only [shouldClaim, hparse]
    rw [if_pos hthr]

/-- Claim C3 witness: an observed airdrop at the threshold is claimed even
with zero minutes of stability. -/
theorem shouldClaim_nil_info_and_threshold_witness :
    shouldClaim ⟨mkRat 1 2, true, ""⟩ ⟨"a1", some 5, some 1, none, "tok"⟩
      (some ⟨1, 0, 0⟩) 0 = true :=
  (shouldClaim_nil_info_and_threshold ⟨mkRat 1 2, true, ""⟩
    ⟨"a1", some 5, some 1, none, "tok"⟩ 0).2 1 ⟨1, 0, 0⟩ rfl (by decide)

/-- Claim C4: ShouldSellDirectly returns false whenever claimedAt is nil or
the price observation is absent; given claimedAt non-nil, an observation
and parseable amountUsd, it returns true iff amountUsd ≥ 0.10 and both
stability durations are ≥ 10 minutes (non-strict). -/
theorem shouldSellDirectly_spec (cfg : Config) (a : AirdropNode) (now : Int) :
    (a.claimedAt = none → ∀ pi, shouldSellDirectly cfg a pi now = false) ∧
    (shouldSellDirectly cfg a none now = false) ∧
    (∀ ts usd info, a.claimedAt = some ts → a.amountUsd = some usd →
      (shouldSellDirectly cfg a (some info) now = true ↔
        (usd ≥ mkRat 1 10 ∧ now - info.lastChanged ≥ 10 * minuteNs ∧
          now - info.firstObserved ≥ 10 * minuteNs))) := by
  refine ⟨?_, rfl, ?_⟩
  · intro h pi
    cases pi with
    | none => rfl
    | some info => simp [shouldSellDirectly, h]
  · intro ts usd info hts hparse
    simp only [shouldSellDirectly, hts, hparse]
    by_cases husd : usd ≥ mkRat 1 10
    · rw [if_pos husd]
      by_cases h : now - info.lastChanged ≥ 10 * minuteNs ∧
          now - info.firstObserved ≥ 10 * minuteNs
      · rw [if_pos h]
        simp [husd, h]
      · rw [if_neg h]
        simp [husd, h]
    · rw [if_neg husd]
      simp [husd]

/-- Claim C4 witness: a platform-claimed airdrop worth $0.20 stable for
exactly 10 minutes is sold directly (non-strict boundary). -/
theorem shouldSellDirectly_spec_witness :
    shouldSellDirectly ⟨mkRat 1 2, true, ""⟩
      ⟨"a1", some 5, some (mkRat 1 5), some 0, "tok"⟩
      (some ⟨mkRat 1 5, 0, 0⟩) (10 * minuteNs) = true :=
  ((shouldSellDirectly_spec ⟨mkRat 1 2, true, ""⟩
    ⟨"a1", some 5, some (mkRat 1 5), some 0, "tok"⟩ (10 * minuteNs)).2.2
    0 (mkRat 1 5) ⟨mkRat 1 5, 0, 0⟩ rfl rfl).mpr
    ⟨by decide, by decide, by decide⟩

/-- Claim C10: for every airdrop whose amountUsd fails to parse, both
ShouldClaim and ShouldSellDirectly return false regardless of the price
observation, claimedAt and the configured threshold. -/
theorem decisions_fail_closed_on_unparseable (cfg : Config) (a : AirdropNode)
    (pi : Option TokenPriceInfo) (now : Int) (h : a.amountUsd = none) :
    shouldClaim cfg a pi now = false ∧ shouldSellDirectly cfg a pi now = false := by
  cases pi with
  | none => exact ⟨rfl, rfl⟩
  | some info =>
    constructor
    · simp [shouldClaim, h]
    · cases hc : a.claimedAt with
      | none => simp [shouldSellDirectly, hc]
      | some ts => simp [shouldSellDirectly, hc, h]

/-- Claim C10 witness: an unparseable amountUsd is rejected by both
decision functions even with a stable observation and claimedAt set. -/
theorem decisions_fail_closed_on_unparseable_witness :
    shouldClaim ⟨mkRat 1 2, true, ""⟩ ⟨"a1", some 5, none, some 0, "tok"⟩
      (some ⟨1, 0, 0⟩) (20 * minuteNs) = false ∧
    shouldSellDirectly ⟨mkRat 1 2, true, ""⟩ ⟨"a1", some 5, none, some 0, "tok"⟩
      (some ⟨1, 0, 0⟩) (20 * minuteNs) = false :=
  decisions_fail_closed_on_unparseable ⟨mkRat 1 2, true, ""⟩
    ⟨"a1", some 5, none, some 0, "tok"⟩ (some ⟨1, 0, 0⟩) (20 * minuteNs) rfl

/-- Claim C9: for every sequence of UpdatePriceData calls on a given id, an
unparseable amountUsd leaves the tracker unchanged; firstObserved is set by
the first parseable observation and never changed by any later call; and
lastChanged is updated only by a call whose parsed value differs from the
stored lastPrice, an equal-value observation changing nothing. -/
theorem updatePriceData_invariants (t : List (String × TokenPriceInfo))
    (a : AirdropNode) (now : Int) :
    (a.amountUsd = none → updatePriceData t a now = t) ∧
    (∀ usd, a.amountUsd = some usd → lookupInfo t a.id = none →
      lookupInfo (updatePriceData t a now) a.id = some ⟨usd, now, now⟩) ∧
    (∀ usd info, a.amountUsd = some usd → lookupInfo t a.id = some info →
      (info.lastPrice = usd → updatePriceData t a now = t) ∧
      (info.lastPrice ≠ usd →
        lookupInfo (updatePriceData t a now) a.id =
          some ⟨usd, now, info.firstObserved⟩)) ∧
    (∀ id info calls, lookupInfo t id = some info →
      ∃ info', lookupInfo (applyPriceUpdates t calls) id = some info' ∧
        info'.firstObserved = info.firstObserved) := by
  refine ⟨?_, ?_, ?_, ?_⟩
  · intro h
    simp [updatePriceData, h]
  · intro usd h hl
    simp only [updatePriceData, h, hl]
    exact lookupInfo_insertInfo_self t a.id _
  · intro usd info h hl
    constructor
    · intro he
      simp [updatePriceData, h, hl, he]
    · intro hne
      simp only [updatePriceData, h, hl]
      rw [if_pos hne]
      exact lookupInfo_insertInfo_self t a.id _
  · intro id info calls h
    exact applyPriceUpdates_firstObserved_stable calls t id info h

/-- Claim C9 witness: after a later differing observation, the entry keeps
its original firstObserved timestamp. -/
theorem updatePriceData_invariants_witness :
    ∃ info', lookupInfo
        (applyPriceUpdates [("a1", ⟨1, 5, 3⟩)]
          [(⟨"a1", some 5, some 2, none, "tok"⟩, 20)]) "a1" = some info' ∧
      info'.firstObserved = TokenPriceInfo.firstObserved ⟨1, 5, 3⟩ :=
  (updatePriceData_invariants [("a1", ⟨1, 5, 3⟩)]
    ⟨"a1", some 5, some 2, none, "tok"⟩ 20).2.2.2 "a1" ⟨1, 5, 3⟩
    [(⟨"a1", some 5, some 2, none, "tok"⟩, 20)] (by decide)

theorem hasID_cons_of (l : List String) (x id : String)
    (h : hasID l id = true) : hasID (x :: l) id = true := by
  by_cases hx : x = id
  · simp [hasID, hx]
  · simp [hasID, hx, h]

theorem isAlreadyClaimed_snd_mono (claimed : List String) (a : AirdropNode)
    (id : String) (h : hasID claimed id = true) :
    hasID (isAlreadyClaimed claimed a).2 id = true := by
  unfold isAlreadyClaimed
  split
  · exact h
  · split
    · exact hasID_cons_of claimed a.id id h
    · exact h

theorem isAlreadyClaimed_fst_false_inv (claimed : List String)
    (a : AirdropNode) (h : (isAlreadyClaimed claimed a).1 = false) :
    hasID claimed a.id = false ∧ a.claimedAt = none := by
  unfold isAlreadyClaimed at h
  by_cases h1 : hasID claimed a.id = true
  · simp [h1] at h
  · by_cases h2 : a.claimedAt.isSome = true
    · simp [h1, h2] at h
    · exact ⟨Bool.eq_false_iff.mpr h1,
        Option.not_isSome_iff_eq_none.mp (Bool.eq_false_iff.mpr h2 ▸ by simp [h2])⟩

theorem handleClaimResult_mono (claimed : List String) (a : AirdropNode)
    (res : Except String String) (id : String)
    (h : hasID claimed id = true) :
    hasID (handleClaimResult claimed a res) id = true := by
  cases res with
  | ok tx => exact hasID_cons_of claimed a.id id h
  | error msg =>
    simp only [handleClaimResult]
    split
    · exact hasID_cons_of claimed a.id id h
    · exact h

theorem handleStableTokenSale_claimedAt_none (cfg : Config)
    (claimed : List String) (a : AirdropNode) (pi : Option TokenPriceInfo)
    (now : Int) (h : a.claimedAt = none) :
    handleStableTokenSale cfg claimed a pi now = [] := by
  simp [handleStableTokenSale, h]

theorem processAndFilterAirdrops_events_nil (cfg : Config) :
    ∀ (airdrops : List AirdropNode) (claimed : List String)
      (tracker : List (String × TokenPriceInfo)) (now : Int),
      (processAndFilterAirdrops cfg claimed tracker now airdrops).events = [] := by
  intro airdrops
  induction airdrops with
  | nil => intro claimed tracker now; rfl
  | cons a rest ih =>
    intro claimed tracker now
    simp only [processAndFilterAirdrops]
    cases hfst : (isAlreadyClaimed claimed a).1 with
    | true =>
      simp only [if_true]
      exact ih _ _ _
    | false =>
      obtain ⟨-, hnone⟩ := isAlreadyClaimed_fst_false_inv claimed a hfst
      simp only [Bool.false_eq_true, if_false]
      by_cases hsc : shouldClaim cfg a
          (getTokenPriceInfo (updatePriceData tracker a now) a.id) now = true
      · simp only [hsc, if_true]
        exact ih _ _ _
      · simp only [hsc, if_false]
        rw [handleStableTokenSale_claimedAt_none cfg claimed a _ now hnone]
        simp only [List.nil_append]
        exact ih _ _ _

theorem processAndFilterAirdrops_claimed_mono (cfg : Config) (id : String) :
    ∀ (airdrops : List AirdropNode) (claimed : List String)
      (tracker : List (String × TokenPriceInfo)) (now : Int),
      hasID claimed id = true →
      hasID (processAndFilterAirdrops cfg claimed tracker now airdrops).claimed id = true := by
  intro airdrops
  induction airdrops with
  | nil => intro claimed tracker now h; exact h
  | cons a rest ih =>
    intro claimed tracker now h
    simp only [processAndFilterAirdrops]
    cases hfst : (isAlreadyClaimed claimed a).1 with
    | true =>
      simp only [if_true]
      exact ih _ _ _ (isAlreadyClaimed_snd_mono claimed a id h)
    | false =>
      simp only [Bool.false_eq_true, if_false]
      by_cases hsc : shouldClaim cfg a
          (getTokenPriceInfo (updatePriceData tracker a now) a.id) now = true
      · simp only [hsc, if_true]
        exact ih _ _ _ h
      · simp only [hsc, if_false]
        exact ih _ _ _ h

theorem claimLoop_claimed_mono (cfg : Config)
    (claimOracle : String → Nat → Except String String)
    (refreshSucceeds : Bool) (now : Int) (id : String) :
    ∀ (l : List AirdropNode) (claimed : List String)
      (lastTokenRefresh : Option Int), hasID claimed id = true →
      hasID (claimLoop cfg claimOracle refreshSucceeds now claimed
        lastTokenRefresh l).claimed id = true := by
  intro l
  induction l with
  | nil => intro claimed last h; exact h
  | cons a rest ih =>
    intro claimed last h
    simp only [claimLoop]
    cases hfst : (isAlreadyClaimed claimed a).1 with
    | true =>
      simp only [if_true]
      exact ih _ _ (isAlreadyClaimed_snd_mono claimed a id h)
    | false =>
      simp only [Bool.false_eq_true, if_false]
      cases horacle : claimOracle a.id 1 with
      | ok tx =>
        dsimp only
        exact handleClaimResult_mono claimed a _ id h
      | error msg =>
        dsimp only
        by_cases hauth : isAuthErrorMsg msg = true
        · rw [if_pos hauth]
          exact handleClaimResult_mono claimed a _ id h
        · rw [if_neg hauth]
          show hasID (handleClaimResult claimed a (Except.error msg)) id = true
          exact handleClaimResult_mono claimed a _ id h

theorem claimLoop_no_reinvoke (cfg : Config)
    (claimOracle : String → Nat → Except String String)
    (refreshSucceeds : Bool) (now : Int) (id : String) :
    ∀ (l : List AirdropNode) (claimed : List String)
      (lastTokenRefresh : Option Int), hasID claimed id = true →
      ∀ n, Event.claimInvoked id n ∉ (claimLoop cfg claimOracle refreshSucceeds
        now claimed lastTokenRefresh l).events := by
  intro l
  induction l with
  | nil => intro claimed last h n; exact List.not_mem_nil _
  | cons a rest ih =>
    intro claimed last h n
    simp only [claimLoop]
    cases hfst : (isAlreadyClaimed claimed a).1 with
    | true =>
      simp only [if_true]
      exact ih _ _ (isAlreadyClaimed_snd_mono claimed a id h) n
    | false =>
      obtain ⟨hmem, -⟩ := isAlreadyClaimed_fst_false_inv claimed a hfst
      have hne : a.id ≠ id := by
        intro he
        rw [he] at hmem
        rw [h] at hmem
        exact Bool.true_eq_false.mp hmem
      simp only [Bool.false_eq_true, if_false]
      cases horacle : claimOracle a.id 1 with
      | ok tx =>
        dsimp only
        simp [Ne.symm hne]
      | error msg =>
        dsimp only
        by_cases hauth : isAuthErrorMsg msg = true
        · rw [if_pos hauth]
          simp [Ne.symm hne]
        · rw [if_neg hauth]
          simp [Ne.symm hne]

/-- Claim C5: once an airdrop ID is in the claimedAirdrops set, a cycle
never removes it and never invokes ClaimAirdropByID for it again. -/
theorem claimedSet_permanent (cfg : Config) (st : ServiceState) (now : Int)
    (scanResult : Except String (List AirdropNode))
    (claimOracle : String → Nat → Except String String)
    (refreshSucceeds : Bool) (id : String)
    (h : hasID st.claimed id = true) :
    hasID (processAirdrops cfg st now scanResult claimOracle
      refreshSucceeds).1.claimed id = true ∧
    ∀ n, Event.claimInvoked id n ∉
      (processAirdrops cfg st now scanResult claimOracle refreshSucceeds).2 := by
  cases scanResult with
  | error msg =>
    simp only [processAirdrops]
    by_cases hauth : isAuthErrorMsg msg = true
    · rw [if_pos hauth]
      exact ⟨h, fun n => List.not_mem_nil _⟩
    · rw [if_neg hauth]
      exact ⟨h, fun n => List.not_mem_nil _⟩
  | ok airdrops =>
    simp only [processAirdrops]
    refine ⟨?_, ?_⟩
    · exact claimLoop_claimed_mono cfg claimOracle refreshSucceeds now id _ _ _
        (processAndFilterAirdrops_claimed_mono cfg id airdrops st.claimed
          st.tracker now h)
    · intro n
      rw [processAndFilterAirdrops_events_nil cfg airdrops st.claimed st.tracker now]
      simp only [List.nil_append]
      exact claimLoop_no_reinvoke cfg claimOracle refreshSucceeds now id _ _ _
        (processAndFilterAirdrops_claimed_mono cfg id airdrops st.claimed
          st.tracker now h) n

/-- Claim C5 witness: an already-claimed id survives a full cycle and is
never claimed again in it. -/
theorem claimedSet_permanent_witness :
    hasID (processAirdrops ⟨mkRat 1 2, true, "k"⟩ ⟨["a1"], [], none⟩ 0
      (.ok [⟨"a1", some 5, some 1, none, "tok"⟩])
      (fun _ _ => .error "boom") false).1.claimed "a1" = true ∧
    ∀ n, Event.claimInvoked "a1" n ∉
      (processAirdrops ⟨mkRat 1 2, true, "k"⟩ ⟨["a1"], [], none⟩ 0
        (.ok [⟨"a1", some 5, some 1, none, "tok"⟩])
        (fun _ _ => .error "boom") false).2 :=
  claimedSet_permanent ⟨mkRat 1 2, true, "k"⟩ ⟨["a1"], [], none⟩ 0
    (.ok [⟨"a1", some 5, some 1, none, "tok"⟩])
    (fun _ _ => .error "boom") false "a1" (by decide)

/-- Claim C1 (refuted; the direct-sell path is dead code): a scan cycle
never starts an asynchronous SellToken, because isAlreadyClaimed marks
every airdrop with claimedAt non-nil as locally claimed and skips it before
handleStableTokenSale can run.  The second conjunct evaluates the cycle at
an input meeting every premise of the claim — not locally claimed,
ShouldClaim false, claimedAt non-nil, ShouldSellDirectly true — and shows
no sell is initiated; instead the airdrop is marked locally claimed. -/
theorem directSellPathNeverFires :
    (∀ (cfg : Config) (claimed : List String)
      (tracker : List (String × TokenPriceInfo)) (now : Int)
      (airdrops : List AirdropNode),
      (processAndFilterAirdrops cfg claimed tracker now airdrops).events = []) ∧
    (hasID [] "a1" = false ∧
      shouldClaim ⟨mkRat 1 2, true, "k"⟩
        ⟨"a1", some 5, some (mkRat 1 5), some 0, "tok"⟩
        (some ⟨mkRat 1 5, 0, 0⟩) (10 * minuteNs) = false ∧
      shouldSellDirectly ⟨mkRat 1 2, true, "k"⟩
        ⟨"a1", some 5, some (mkRat 1 5), some 0, "tok"⟩
        (some ⟨mkRat 1 5, 0, 0⟩) (10 * minuteNs) = true ∧
      (processAndFilterAirdrops ⟨mkRat 1 2, true, "k"⟩ []
        [("a1", ⟨mkRat 1 5, 0, 0⟩)] (10 * minuteNs)
        [⟨"a1", some 5, some (mkRat 1 5), some 0, "tok"⟩]).events = [] ∧
      (processAndFilterAirdrops ⟨mkRat 1 2, true, "k"⟩ []
        [("a1", ⟨mkRat 1 5, 0, 0⟩)] (10 * minuteNs)
        [⟨"a1", some 5, some (mkRat 1 5), some 0, "tok"⟩]).claimed = ["a1"]) :=
  ⟨fun cfg claimed tracker now airdrops =>
    processAndFilterAirdrops_events_nil cfg airdrops claimed tracker now,
   by decide⟩

theorem refreshAuthToken_skip_within_window (cfg : Config) (t now : Int)
    (succ : Bool) (h : now - t < 30 * minuteNs) :
    refreshAuthToken cfg (some t) now succ = (some t, false, false) := by
  unfold refreshAuthToken
  split
  · rfl
  · dsimp only
    rw [if_pos h]

theorem applyRefreshCalls_no_refresh_within_window (cfg : Config) (t : Int) :
    ∀ calls : List (Int × Bool), (∀ c ∈ calls, c.1 - t < 30 * minuteNs) →
      applyRefreshCalls cfg (some t) calls = (some t, 0) := by
  intro calls
  induction calls with
  | nil => intro h; rfl
  | cons c rest ih =>
    intro h
    have hc : c.1 - t < 30 * minuteNs := h c (List.mem_cons_self c rest)
    have hr := refreshAuthToken_skip_within_window cfg t c.1 c.2 hc
    have ht := ih (fun c' hc' => h c' (List.mem_cons_of_mem c hc'))
    simp only [applyRefreshCalls, hr]
    simp [ht]

theorem claimLoop_auth_retry (cfg : Config)
    (claimOracle : String → Nat → Except String String) (rsucc : Bool)
    (now : Int) (claimed : List String) (last : Option Int)
    (a : AirdropNode) (rest : List AirdropNode) (msg : String)
    (hfst : (isAlreadyClaimed claimed a).1 = false)
    (h1 : claimOracle a.id 1 = Except.error msg)
    (hauth : isAuthErrorMsg msg = true) :
    claimLoop cfg claimOracle rsucc now claimed last (a :: rest) =
      ⟨handleClaimResult claimed a (claimOracle a.id 2),
        (refreshAuthToken cfg last now rsucc).1,
        [Event.claimInvoked a.id 1, Event.claimInvoked a.id 2]⟩ := by
  simp only [claimLoop, hfst, Bool.false_eq_true, if_false, h1]
  rw [if_pos hauth]

theorem processAirdrops_scan_auth_error (cfg : Config) (st : ServiceState)
    (now : Int) (msg : String)
    (claimOracle : String → Nat → Except String String) (rsucc : Bool)
    (hauth : isAuthErrorMsg msg = true) :
    processAirdrops cfg st now (.error msg) claimOracle rsucc =
      ({ st with lastTokenRefresh :=
          (refreshAuthToken cfg st.lastTokenRefresh now rsucc).1 }, []) := by
  simp only [processAirdrops]
  rw [if_pos hauth]

/-- Claim C7: auth-classified scan and claim errors trigger a credential
refresh; an actual refresh is performed at most once per 30 minutes — after
a performed refresh at time t, any number of refresh triggers earlier than
t + 30min perform none and leave the recorded time unchanged; on an
auth-classified claim error the claim is retried exactly once (two
invocations, the cycle's outcome taken from the second) while a scan error
ends the cycle without any claim invocation or scan retry. -/
theorem authRefresh_throttle_and_single_retry :
    (∀ (cfg : Config) (t now : Int) (succ : Bool), now - t < 30 * minuteNs →
      refreshAuthToken cfg (some t) now succ = (some t, false, false)) ∧
    (∀ (cfg : Config) (t : Int) (calls : List (Int × Bool)),
      (∀ c ∈ calls, c.1 - t < 30 * minuteNs) →
      applyRefreshCalls cfg (some t) calls = (some t, 0)) ∧
    (∀ (cfg : Config) (claimOracle : String → Nat → Except String String)
      (rsucc : Bool) (now : Int) (claimed : List String) (last : Option Int)
      (a : AirdropNode) (rest : List AirdropNode) (msg : String),
      (isAlreadyClaimed claimed a).1 = false →
      claimOracle a.id 1 = Except.error msg → isAuthErrorMsg msg = true →
      (claimLoop cfg claimOracle rsucc now claimed last (a :: rest)).events =
        [Event.claimInvoked a.id 1, Event.claimInvoked a.id 2] ∧
      (claimLoop cfg claimOracle rsucc now claimed last (a :: rest)).claimed =
        handleClaimResult claimed a (claimOracle a.id 2) ∧
      (claimLoop cfg claimOracle rsucc now claimed last (a :: rest)).lastTokenRefresh =
        (refreshAuthToken cfg last now rsucc).1) ∧
    (∀ (cfg : Config) (st : ServiceState) (now : Int) (msg : String)
      (claimOracle : String → Nat → Except String String) (rsucc : Bool),
      isAuthErrorMsg msg = true →
      processAirdrops cfg st now (.error msg) claimOracle rsucc =
        ({ st with lastTokenRefresh :=
            (refreshAuthToken cfg st.lastTokenRefresh now rsucc).1 }, [])) := by
  refine ⟨refreshAuthToken_skip_within_window,
    applyRefreshCalls_no_refresh_within_window, ?_,
    processAirdrops_scan_auth_error⟩
  intro cfg claimOracle rsucc now claimed last a rest msg hfst h1 hauth
  rw [claimLoop_auth_retry cfg claimOracle rsucc now claimed last a rest msg
    hfst h1 hauth]
  exact ⟨rfl, rfl, rfl⟩

/-- Claim C7 witness: two qualifying errors 5 and 10 minutes after a
refresh perform no further refresh, and an auth-failing claim is invoked
exactly twice in its cycle. -/
theorem authRefresh_throttle_and_single_retry_witness :
    applyRefreshCalls ⟨1, true, "k"⟩ (some 0)
      [(5 * minuteNs, true), (10 * minuteNs, true)] = (some 0, 0) ∧
    (claimLoop ⟨1, true, "k"⟩
      (fun _ n => if n = 1 then Except.error "unauthorized" else Except.ok "tx")
      true 0 [] none [⟨"a1", some 5, some 1, none, "tok"⟩]).events =
      [Event.claimInvoked "a1" 1, Event.claimInvoked "a1" 2] :=
  ⟨authRefresh_throttle_and_single_retry.2.1 ⟨1, true, "k"⟩ 0
      [(5 * minuteNs, true), (10 * minuteNs, true)] (by decide),
    (authRefresh_throttle_and_single_retry.2.2.1 ⟨1, true, "k"⟩
      (fun _ n => if n = 1 then Except.error "unauthorized" else Except.ok "tx")
      true 0 [] none ⟨"a1", some 5, some 1, none, "tok"⟩ [] "unauthorized"
      (by decide) rfl (by decide)).1⟩

/-- Claim C8: ClaimAirdropByID fails without building or submitting any
transaction both when the store has no airdrop with the given id and when
the stored record's claimedAt is already non-nil. -/
theorem claimAirdropByID_precondition_failures
    (store : List (String × AirdropNode)) (airdropID : String)
    (rest : AirdropNode → Except String String × Bool) :
    (lookupAirdrop store airdropID = none →
      claimAirdropByIDWithConfig store airdropID rest =
        (.error ("failed to get airdrop: airdrop with ID " ++ airdropID ++
          " not found"), false)) ∧
    (∀ a, lookupAirdrop store airdropID = some a → a.claimedAt.isSome = true →
      claimAirdropByIDWithConfig store airdropID rest =
        (.error ("airdrop " ++ airdropID ++ " is already claimed"), false)) := by
  constructor
  · intro h
    simp only [claimAirdropByIDWithConfig, h]
  · intro a h hc
    simp only [claimAirdropByIDWithConfig, h]
    rw [if_pos hc]

/-- Claim C8 witness: a missing id and an already-claimed record both fail
with no transaction submitted. -/
theorem claimAirdropByID_precondition_failures_witness :
    claimAirdropByIDWithConfig [] "a2" (fun _ => (.ok "tx", true)) =
      (.error ("failed to get airdrop: airdrop with ID " ++ "a2" ++
        " not found"), false) ∧
    claimAirdropByIDWithConfig [("a1", ⟨"a1", some 5, some 1, some 7, "tok"⟩)]
      "a1" (fun _ => (.ok "tx", true)) =
      (.error ("airdrop " ++ "a1" ++ " is already claimed"), false) :=
  ⟨(claimAirdropByID_precondition_failures [] "a2"
      (fun _ => (.ok "tx", true))).1 rfl,
    (claimAirdropByID_precondition_failures
      [("a1", ⟨"a1", some 5, some 1, some 7, "tok"⟩)] "a1"
      (fun _ => (.ok "tx", true))).2 ⟨"a1", some 5, some 1, some 7, "tok"⟩
      (by decide) rfl⟩

theorem nextUseShared_false (o : SwapStepOutcome) :
    nextUseShared false o = false := by
  cases o <;> simp only [nextUseShared] <;> first | rfl | (split <;> rfl)

theorem swapGo_trace_length (swapOracle : Nat → Bool → SwapStepOutcome)
    (maxR : Nat) (delay : Int) :
    ∀ (remaining attempt : Nat) (shared : Bool) (lastErr : Option String),
      ((swapGo swapOracle maxR delay remaining attempt shared lastErr).2).length ≤
        remaining := by
  intro remaining
  induction remaining with
  | zero => intro attempt shared lastErr; simp [swapGo]
  | succ r ih =>
    intro attempt shared lastErr
    cases h : swapOracle attempt shared <;>
      simp only [swapGo, h, List.length_cons, List.length_nil] <;>
      first
        | omega
        | exact Nat.succ_le_succ (ih _ _ _)

theorem swapGo_shared_stays_false (swapOracle : Nat → Bool → SwapStepOutcome)
    (maxR : Nat) (delay : Int) :
    ∀ (remaining attempt : Nat) (lastErr : Option String) (x : SwapAttempt),
      x ∈ (swapGo swapOracle maxR delay remaining attempt false lastErr).2 →
      x.usedShared = false := by
  intro remaining
  induction remaining with
  | zero => intro attempt lastErr x hx; simp [swapGo] at hx
  | succ r ih =>
    intro attempt lastErr x hx
    cases h : swapOracle attempt false
    all_goals
      simp only [swapGo, h, List.mem_cons, List.mem_singleton,
        List.not_mem_nil, or_false] at hx
    case success sig => simp [hx]
    all_goals
      rcases hx with hx | hx
      · simp [hx]
      · rw [nextUseShared_false] at hx
        exact ih _ _ x hx

theorem swapGo_downgrade (swapOracle : Nat → Bool → SwapStepOutcome)
    (maxR : Nat) (delay : Int) :
    ∀ (remaining attempt : Nat) (shared : Bool) (lastErr : Option String)
      (pre : List SwapAttempt) (x : SwapAttempt) (post : List SwapAttempt),
      (swapGo swapOracle maxR delay remaining attempt shared lastErr).2 =
        pre ++ x :: post →
      isSharedAccountsUnsupported x.outcome = true →
      ∀ y ∈ post, y.usedShared = false := by
  intro remaining
  induction remaining with
  | zero =>
    intro attempt shared lastErr pre x post heq hx y hy
    have hlen := congrArg List.length heq
    simp [swapGo] at hlen
    omega
  | succ r ih =>
    intro attempt shared lastErr pre x post heq hx y hy
    cases h : swapOracle attempt shared
    case success sig =>
      simp only [swapGo, h] at heq
      cases pre with
      | nil =>
        simp only [List.nil_append] at heq
        injection heq with h1 h2
        rw [← h2] at hy
        simp at hy
      | cons p pre' =>
        simp only [List.cons_append] at heq
        injection heq with h1 h2
        have hlen := congrArg List.length h2
        simp at hlen
        omega
    case buildFail msg =>
      simp only [swapGo, h] at heq
      cases pre with
      | nil =>
        simp only [List.nil_append] at heq
        injection heq with h1 h2
        rw [← h1] at hx
        simp only [isSharedAccountsUnsupported] at hx
        rw [← h2] at hy
        have hsh : nextUseShared shared (SwapStepOutcome.buildFail msg) = false := by
          simp [nextUseShared, hx]
        rw [hsh] at hy
        exact swapGo_shared_stays_false swapOracle maxR delay r (attempt + 1) _ y hy
      | cons p pre' =>
        simp only [List.cons_append] at heq
        injection heq with h1 h2
        exact ih _ _ _ pre' x post h2 hx y hy
    all_goals
      simp only [swapGo, h] at heq
      cases pre with
      | nil =>
        simp only [List.nil_append] at heq
        injection heq with h1 h2
        rw [← h1] at hx
        exact Bool.noConfusion hx
      | cons p pre' =>
        simp only [List.cons_append] at heq
        injection heq with h1 h2
        exact ih _ _ _ pre' x post h2 hx y hy

theorem swapGo_shape (swapOracle : Nat → Bool → SwapStepOutcome)
    (maxR : Nat) (delay : Int) :
    ∀ (remaining attempt : Nat) (shared : Bool) (lastErr : Option String),
      (∃ sig l e,
        (swapGo swapOracle maxR delay remaining attempt shared lastErr).1 = .ok sig ∧
        (swapGo swapOracle maxR delay remaining attempt shared lastErr).2 = l ++ [e] ∧
        e.outcome = .success sig ∧ ∀ x ∈ l, isSwapSuccess x.outcome = false) ∨
      ((∃ msg,
        (swapGo swapOracle maxR delay remaining attempt shared lastErr).1 = .error msg) ∧
        ∀ x ∈ (swapGo swapOracle maxR delay remaining attempt shared lastErr).2,
          isSwapSuccess x.outcome = false) := by
  intro remaining
  induction remaining with
  | zero =>
    intro attempt shared lastErr
    right
    exact ⟨⟨_, rfl⟩, by intro x hx; simp [swapGo] at hx⟩
  | succ r ih =>
    intro attempt shared lastErr
    cases h : swapOracle attempt shared
    case success sig =>
      left
      refine ⟨sig, [], ⟨attempt, shared, .success sig, none⟩, ?_, ?_, rfl, ?_⟩
      · simp [swapGo, h]
      · simp [swapGo, h]
      · intro x hx; simp at hx
    all_goals
      have ih' := ih (attempt + 1)
        (nextUseShared shared (swapOracle attempt shared))
        (some (wrapSwapError (swapOracle attempt shared)))
      rcases ih' with ⟨sig, l, e, hok, htr, hout, hfail⟩ | ⟨⟨msg', herr⟩, hall⟩
      · left
        refine ⟨sig,
          ⟨attempt, shared, swapOracle attempt shared, some delay⟩ :: l, e,
          ?_, ?_, hout, ?_⟩
        · simp only [swapGo, h]
          rw [h] at hok
          exact hok
        · simp only [swapGo, h]
          rw [h] at htr
          rw [htr, List.cons_append]
        · intro x hx
          rcases List.mem_cons.mp hx with hx | hx
          · subst hx
            rw [h]
            rfl
          · exact hfail x hx
      · right
        refine ⟨⟨msg', ?_⟩, ?_⟩
        · simp only [swapGo, h]
          rw [h] at herr
          exact herr
        · intro x hx
          simp only [swapGo, h, List.mem_cons] at hx
          rcases hx with hx | hx
          · subst hx
            rfl
          · rw [h] at hall
            exact hall x hx

theorem swapGo_allfail (swapOracle : Nat → Bool → SwapStepOutcome)
    (maxR : Nat) (delay : Int) :
    ∀ (remaining attempt : Nat) (shared : Bool) (lastErr : Option String),
      (∀ x ∈ (swapGo swapOracle maxR delay remaining attempt shared lastErr).2,
        isSwapSuccess x.outcome = false) →
      ((swapGo swapOracle maxR delay remaining attempt shared lastErr).2).length =
        remaining ∧
      (swapGo swapOracle maxR delay remaining attempt shared lastErr).1 =
        .error (aggSwapError maxR
          (lastWrapped (swapGo swapOracle maxR delay remaining attempt shared
            lastErr).2 lastErr)) := by
  intro remaining
  induction remaining with
  | zero => intro attempt shared lastErr hall; exact ⟨rfl, rfl⟩
  | succ r ih =>
    intro attempt shared lastErr hall
    cases h : swapOracle attempt shared
    case success sig =>
      exfalso
      have hmem : (⟨attempt, shared, .success sig, none⟩ : SwapAttempt) ∈
          (swapGo swapOracle maxR delay (r + 1) attempt shared lastErr).2 := by
        simp [swapGo, h]
      have := hall _ hmem
      simp [isSwapSuccess] at this
    all_goals
      have hall' : ∀ x ∈ (swapGo swapOracle maxR delay r (attempt + 1)
          (nextUseShared shared (swapOracle attempt shared))
          (some (wrapSwapError (swapOracle attempt shared)))).2,
          isSwapSuccess x.outcome = false := by
        rw [h]
        intro x hx
        apply hall
        simp only [swapGo, h, List.mem_cons]
        exact Or.inr hx
      obtain ⟨hlen, hres⟩ := ih _ _ _ hall'
      rw [h] at hlen hres
      constructor
      · simp only [swapGo, h, List.length_cons, hlen]
      · simp only [swapGo, h]
        rw [hres]
        rfl

theorem swapGo_delays (swapOracle : Nat → Bool → SwapStepOutcome)
    (maxR : Nat) (delay : Int) :
    ∀ (remaining attempt : Nat) (shared : Bool) (lastErr : Option String)
      (x : SwapAttempt),
      x ∈ (swapGo swapOracle maxR delay remaining attempt shared lastErr).2 →
      (isSwapSuccess x.outcome = false → x.delayAfterNs = some delay) ∧
      (isSwapSuccess x.outcome = true → x.delayAfterNs = none) := by
  intro remaining
  induction remaining with
  | zero => intro attempt shared lastErr x hx; simp [swapGo] at hx
  | succ r ih =>
    intro attempt shared lastErr x hx
    cases h : swapOracle attempt shared
    all_goals
      simp only [swapGo, h, List.mem_cons, List.mem_singleton,
        List.not_mem_nil, or_false] at hx
    case success sig =>
      subst hx
      constructor
      · intro hf; simp [isSwapSuccess] at hf
      · intro; rfl
    all_goals
      rcases hx with hx | hx
      · subst hx
        constructor
        · intro; rfl
        · intro ht; simp [isSwapSuccess] at ht
      · exact ih _ _ _ x hx

/-- Claim C6: the swap behind SellToken makes at most 10 attempts with a
fixed 3-second delay slept after every failed attempt; after the first
build failure reporting shared-accounts-unsupported every later attempt
runs with shared accounts disabled; a successful submission ends the loop
immediately (the trace is failures followed by one final success, and the
call returns that signature); and when all attempts fail the trace has
exactly 10 entries and the call returns the aggregate error wrapping the
last underlying failure. -/
theorem swapRetryPolicy (swapOracle : Nat → Bool → SwapStepOutcome) :
    ((swapTokenForSol swapOracle true).2).length ≤ 10 ∧
    (∀ x ∈ (swapTokenForSol swapOracle true).2,
      (isSwapSuccess x.outcome = false →
        x.delayAfterNs = some (3 * 1000000000)) ∧
      (isSwapSuccess x.outcome = true → x.delayAfterNs = none)) ∧
    (∀ pre x post,
      (swapTokenForSol swapOracle true).2 = pre ++ x :: post →
      isSharedAccountsUnsupported x.outcome = true →
      ∀ y ∈ post, y.usedShared = false) ∧
    ((∃ sig l e, (swapTokenForSol swapOracle true).1 = .ok sig ∧
        (swapTokenForSol swapOracle true).2 = l ++ [e] ∧
        e.outcome = .success sig ∧
        ∀ x ∈ l, isSwapSuccess x.outcome = false) ∨
      ((∃ msg, (swapTokenForSol swapOracle true).1 = .error msg) ∧
        ∀ x ∈ (swapTokenForSol swapOracle true).2,
          isSwapSuccess x.outcome = false)) ∧
    ((∀ x ∈ (swapTokenForSol swapOracle true).2,
        isSwapSuccess x.outcome = false) →
      ((swapTokenForSol swapOracle true).2).length = 10 ∧
      (swapTokenForSol swapOracle true).1 = .error (aggSwapError 10
        (lastWrapped (swapTokenForSol swapOracle true).2 none))) := by
  have hdef : swapTokenForSol swapOracle true =
      swapGo swapOracle 10 (3 * 1000000000) 10 1 true none := rfl
  rw [hdef]
  exact ⟨swapGo_trace_length swapOracle 10 (3 * 1000000000) 10 1 true none,
    swapGo_delays swapOracle 10 (3 * 1000000000) 10 1 true none,
    swapGo_downgrade swapOracle 10 (3 * 1000000000) 10 1 true none,
    swapGo_shape swapOracle 10 (3 * 1000000000) 10 1 true none,
    swapGo_allfail swapOracle 10 (3 * 1000000000) 10 1 true none⟩

/-- Claim C6 witness: when every attempt fails to quote, the loop runs all
10 attempts and returns the aggregate error wrapping the last failure. -/
theorem swapRetryPolicy_witness :
    ((swapTokenForSol (fun _ _ => SwapStepOutcome.quoteFail "no route")
      true).2).length = 10 ∧
    (swapTokenForSol (fun _ _ => SwapStepOutcome.quoteFail "no route") true).1 =
      .error (aggSwapError 10
        (lastWrapped (swapTokenForSol
          (fun _ _ => SwapStepOutcome.quoteFail "no route") true).2 none)) :=
  (swapRetryPolicy (fun _ _ => SwapStepOutcome.quoteFail "no route")).2.2.2.2
    (by decide)

end BoopRedeemer
